import Mathlib

/-!
Verification of the chat-client controller (poll variant in script.js,
push/SSE variant in the second source file).

The JavaScript sources are shallowly embedded: network effects are made
explicit (snapshot reads and stream events are passed in as data, issued
requests are collected in a log), DOM state is reduced to the fields the
handlers actually read and write, and each handler becomes a pure state
transformer.
-/

namespace ChatClient

/-- A chat message, as exchanged with the remote service: a role string
("user" or "assistant") and a content string. -/
structure Message where
  role : String
  content : String
  deriving DecidableEq

/-- One get-session snapshot read, as seen by the poll loop: `none` models a
response whose body has no array-valued chat field (the code tests
data.chat and Array.isArray), `some chat` models a chat array. -/
def Snapshot : Type := Option (List Message)

instance : DecidableEq Snapshot := by
  unfold Snapshot
  infer_instance

/-- Extraction of the latest assistant-authored content from a chat array,
as in pollForResponse: reverse the array, find the first message with role
assistant, and keep its content only when truthy (non-empty). -/
def extractAssistant (chat : List Message) : Option String :=
  match chat.reverse.find? (fun m => m.role == "assistant") with
  | none => none
  | some m => if m.content == "" then none else some m.content

/-- Extraction applied to a whole snapshot read: a body without a chat
array yields nothing. -/
def readExtract : Snapshot → Option String
  | none => none
  | some chat => extractAssistant chat

/-- The contents extracted from a sequence of snapshot reads, in order;
entries exist exactly for the reads whose latest assistant message has
non-empty content. -/
def extractedContents (reads : List Snapshot) : List String :=
  reads.filterMap readExtract

/-- MAX_POLL_ATTEMPTS from script.js. -/
def MAX_POLL_ATTEMPTS : Nat := 100

/-- STABILITY_CHECK_COUNT from script.js. -/
def STABILITY_CHECK_COUNT : Nat := 5

/-- Window update in pollForResponse: push the new content, then shift the
oldest entry out when the window exceeds STABILITY_CHECK_COUNT entries. -/
def pushWindow (w : List String) (c : String) : List String :=
  if STABILITY_CHECK_COUNT < (w ++ [c]).length then (w ++ [c]).drop 1
  else w ++ [c]

/-- The every-check in pollForResponse: all window entries equal the first
entry. -/
def allSame (w : List String) : Bool :=
  w.all (fun x => x == w.headD "")

/-- The stability test in pollForResponse: the window holds exactly
STABILITY_CHECK_COUNT entries and they are all identical. -/
def stableHit (w : List String) : Bool :=
  w.length == STABILITY_CHECK_COUNT && allSame w

/-- The while loop of pollForResponse. Each iteration consumes one snapshot
read (one fetch), extracts the latest assistant content, updates the
window, and stops with the common value at the first stable window; fuel
is the number of attempts remaining below MAX_POLL_ATTEMPTS. -/
def pollGo : Nat → List Snapshot → List String → Option String
  | 0, _, _ => none
  | _ + 1, [], _ => none
  | fuel + 1, r :: rest, w =>
    match readExtract r with
    | none => pollGo fuel rest w
    | some c =>
      if stableHit (pushWindow w c) then some ((pushWindow w c).headD "")
      else pollGo fuel rest (pushWindow w c)

/-- pollForResponse over a synthetic sequence of snapshot reads: either the
stable content, or the thrown error when the loop ends without a stable
window. -/
def pollForResponse (reads : List Snapshot) : Except String String :=
  match pollGo MAX_POLL_ATTEMPTS reads [] with
  | some c => Except.ok c
  | none => Except.error "Response did not stabilize"

/-- Reference (spec-side) loop over the extracted contents only: the poll
loop with the non-extracting reads and the fuel removed. -/
def wloop : List String → List String → Option String
  | [], _ => none
  | c :: rest, w =>
    if stableHit (pushWindow w c) then some ((pushWindow w c).headD "")
    else wloop rest (pushWindow w c)

-- Spec scenario: stability is reached at the fifth identical ABC read.
example :
    pollForResponse
      ((["A", "AB", "ABC", "ABC", "ABC", "ABC", "ABC"].map
        (fun s => (some [⟨"assistant", s⟩] : Snapshot)))) = Except.ok "ABC" := by
  rfl

example : pollForResponse [(some [⟨"assistant", "A"⟩] : Snapshot)] =
    Except.error "Response did not stabilize" := by
  rfl

/-- Invariant of the poll window along a run started from the empty window:
either the window is not yet full, or it is full but failed the stability
check when it was formed. -/
def WindowInv (w : List String) : Prop :=
  w.length < 5 ∨ (w.length = 5 ∧ allSame w = false)

lemma allSame_eq_replicate {w : List String} (h5 : w.length = 5)
    (hs : allSame w = true) : w = List.replicate 5 (w.headD "") := by
  rw [List.eq_replicate_iff]
  refine ⟨h5, fun b hb => ?_⟩
  exact eq_of_beq ((List.all_eq_true.mp hs) b hb)

lemma allSame_replicate (n : Nat) (c : String) :
    allSame (List.replicate n c) = true := by
  cases n with
  | zero => rfl
  | succ m =>
    apply List.all_eq_true.mpr
    intro x hx
    rw [List.replicate_succ] at hx ⊢
    have hx' : x = c := by
      rcases List.mem_cons.mp hx with h | h
      · exact h
      · exact List.eq_of_mem_replicate h
    simp [hx']

lemma pushWindow_length {w : List String} {c : String} (h : w.length ≤ 5) :
    (pushWindow w c).length ≤ 5 := by
  unfold pushWindow STABILITY_CHECK_COUNT
  split <;> rename_i hx <;>
    simp only [List.length_append, List.length_cons, List.length_nil,
      List.length_drop] at hx ⊢ <;>
    omega

lemma pushWindow_suffix (w : List String) (c : String) :
    ∃ k, k ≤ (w ++ [c]).length ∧ pushWindow w c = (w ++ [c]).drop k := by
  unfold pushWindow
  split
  · exact ⟨1, by simp, rfl⟩
  · exact ⟨0, by simp, rfl⟩

lemma stableHit_window {w : List String} (h : stableHit w = true) :
    w.length = 5 ∧ w = List.replicate 5 (w.headD "") := by
  unfold stableHit at h
  have h1 := (Bool.and_eq_true _ _).mp h
  have hlen : w.length = 5 := by
    have := h1.1
    simpa [STABILITY_CHECK_COUNT] using this
  exact ⟨hlen, allSame_eq_replicate hlen h1.2⟩

/-- Soundness of the window loop: if it declares a stable content, then
some window of 5 consecutive entries of the scanned sequence (continued
from the current window) consists of 5 copies of that content. -/
lemma wloop_sound : ∀ (xs w : List String) (c : String),
    wloop xs w = some c →
    ∃ i, ((w ++ xs).drop i).take 5 = List.replicate 5 c := by
  intro xs
  induction xs with
  | nil => intro w c h; simp [wloop] at h
  | cons x rest ih =>
    intro w c h
    rw [wloop] at h
    obtain ⟨k, hk, hpw⟩ := pushWindow_suffix w x
    have hassoc : w ++ x :: rest = (w ++ [x]) ++ rest := by
      simp
    split at h
    · next hs =>
      obtain ⟨hlen, hrep⟩ := stableHit_window hs
      have hc : (pushWindow w x).headD "" = c := by
        exact Option.some.inj h
      refine ⟨k, ?_⟩
      rw [hassoc, List.drop_append_of_le_length hk, ← hpw]
      rw [List.take_append_of_le_length (by omega)]
      rw [List.take_of_length_le (by omega)]
      rw [hrep, hc]
    · next hs =>
      obtain ⟨i, hi⟩ := ih (pushWindow w x) c h
      refine ⟨k + i, ?_⟩
      rw [hassoc, ← List.drop_drop]
      rw [List.drop_append_of_le_length hk, ← hpw]
      exact hi

/-- Completeness of the window loop: if some window of 5 consecutive
entries of the scanned sequence (continued from a window satisfying the
run invariant) consists of 5 equal entries, the loop declares a stable
content. -/
lemma wloop_complete : ∀ (xs w : List String),
    WindowInv w →
    (∃ i c, ((w ++ xs).drop i).take 5 = List.replicate 5 c) →
    ∃ c, wloop xs w = some c := by
  intro xs
  induction xs with
  | nil =>
    intro w hinv ⟨i, c, hwin⟩
    exfalso
    rw [List.append_nil] at hwin
    have hlen := congrArg List.length hwin
    simp [List.length_take, List.length_drop] at hlen
    have h5 : w.length = 5 ∧ i = 0 := by
      rcases hinv with h | h
      · omega
      · exact ⟨h.1, by omega⟩
    rcases hinv with h | h
    · omega
    · rw [h5.2, List.drop_zero, List.take_of_length_le (by omega)] at hwin
      have : allSame w = true := by rw [hwin]; exact allSame_replicate 5 c
      rw [h.2] at this
      exact Bool.false_ne_true this
  | cons x rest ih =>
    intro w hinv hwin
    rw [wloop]
    by_cases hs : stableHit (pushWindow w x) = true
    · rw [if_pos hs]
      exact ⟨_, rfl⟩
    · rw [if_neg hs]
      have hwle : w.length ≤ 5 := by
        rcases hinv with h | h
        · omega
        · omega
      have hinv1 : WindowInv (pushWindow w x) := by
        have hle := @pushWindow_length w x hwle
        rcases Nat.lt_or_ge (pushWindow w x).length 5 with h | h
        · exact Or.inl h
        · have h5 : (pushWindow w x).length = 5 := by omega
          refine Or.inr ⟨h5, ?_⟩
          by_contra hall
          have hall' : allSame (pushWindow w x) = true := by
            cases hv : allSame (pushWindow w x)
            · exact absurd hv hall
            · rfl
          apply hs
          unfold stableHit
          rw [h5]
          simp [STABILITY_CHECK_COUNT, hall']
      apply ih (pushWindow w x) hinv1
      -- transfer the witness window across one loop step
      obtain ⟨i, c, hwin'⟩ := hwin
      have hassoc : w ++ x :: rest = (w ++ [x]) ++ rest := by
        simp
      rw [hassoc] at hwin'
      unfold pushWindow
      split
      · next hgt =>
        -- the window was full: the oldest entry is shifted out
        have hw5 : w.length = 5 := by
          simp [STABILITY_CHECK_COUNT] at hgt
          omega
        have hnotall : allSame w = false := by
          rcases hinv with h | h
          · omega
          · exact h.2
        cases i with
        | zero =>
          exfalso
          rw [List.drop_zero, List.append_assoc,
            List.take_append_of_le_length (by omega),
            List.take_of_length_le (by omega)] at hwin'
          have : allSame w = true := by rw [hwin']; exact allSame_replicate 5 c
          rw [hnotall] at this
          exact Bool.false_ne_true this
        | succ j =>
          refine ⟨j, c, ?_⟩
          rw [show j + 1 = 1 + j by omega, ← List.drop_drop,
            List.drop_append_of_le_length (by simp)] at hwin'
          exact hwin'
      · exact ⟨i, c, hwin'⟩

lemma readExtract_ne_empty {r : Snapshot} {c : String}
    (h : readExtract r = some c) : c ≠ "" := by
  match r with
  | none => exact absurd h (by simp [readExtract])
  | some chat =>
    rw [show readExtract (some chat) = extractAssistant chat from rfl] at h
    unfold extractAssistant at h
    split at h
    · exact absurd h (by simp)
    · split at h
      · exact absurd h (by simp)
      · next hne =>
        injection h with h'
        subst h'
        intro he
        apply hne
        rw [he]
        rfl

lemma extractedContents_ne_empty {reads : List Snapshot} {c : String}
    (h : c ∈ extractedContents reads) : c ≠ "" := by
  unfold extractedContents at h
  obtain ⟨r, _, hr⟩ := List.mem_filterMap.mp h
  exact readExtract_ne_empty hr

/-- The fueled loop over reads computes the same answer as the reference
loop over the extracted contents, provided the fuel covers all reads. -/
lemma pollGo_eq_wloop : ∀ (reads : List Snapshot) (fuel : Nat) (w : List String),
    reads.length ≤ fuel →
    pollGo fuel reads w = wloop (extractedContents reads) w := by
  intro reads
  induction reads with
  | nil =>
    intro fuel w _
    cases fuel <;> simp [pollGo, wloop, extractedContents]
  | cons r rest ih =>
    intro fuel w hfuel
    match fuel with
    | 0 => exact absurd hfuel (by simp)
    | f + 1 =>
      have hrest : rest.length ≤ f := by
        simp at hfuel
        omega
      cases hr : readExtract r with
      | none =>
        have h1 : pollGo (f + 1) (r :: rest) w = pollGo f rest w := by
          rw [pollGo, hr]
        have h2 : extractedContents (r :: rest) = extractedContents rest := by
          unfold extractedContents
          rw [List.filterMap_cons_none hr]
        rw [h1, h2]
        exact ih f w hrest
      | some c =>
        have h1 : pollGo (f + 1) (r :: rest) w =
            if stableHit (pushWindow w c) then some ((pushWindow w c).headD "")
            else pollGo f rest (pushWindow w c) := by
          rw [pollGo, hr]
        have h2 : extractedContents (r :: rest) = c :: extractedContents rest := by
          unfold extractedContents
          rw [List.filterMap_cons_some hr]
        rw [h1, h2, wloop]
        split
        · rfl
        · exact ih f _ hrest

/-- The fueled loop never looks past its fuel: only the first `fuel` reads
matter. -/
lemma pollGo_take : ∀ (fuel : Nat) (reads : List Snapshot) (w : List String),
    pollGo fuel reads w = pollGo fuel (reads.take fuel) w := by
  intro fuel
  induction fuel with
  | zero => intro reads w; rfl
  | succ f ih =>
    intro reads w
    cases reads with
    | nil => rfl
    | cons r rest =>
      rw [List.take_succ_cons]
      cases hr : readExtract r with
      | none =>
        have h1 : pollGo (f + 1) (r :: rest) w = pollGo f rest w := by
          rw [pollGo, hr]
        have h2 : pollGo (f + 1) (r :: rest.take f) w = pollGo f (rest.take f) w := by
          rw [pollGo, hr]
        rw [h1, h2]
        exact ih rest w
      | some c =>
        have h1 : pollGo (f + 1) (r :: rest) w =
            if stableHit (pushWindow w c) then some ((pushWindow w c).headD "")
            else pollGo f rest (pushWindow w c) := by
          rw [pollGo, hr]
        have h2 : pollGo (f + 1) (r :: rest.take f) w =
            if stableHit (pushWindow w c) then some ((pushWindow w c).headD "")
            else pollGo f (rest.take f) (pushWindow w c) := by
          rw [pollGo, hr]
        rw [h1, h2]
        split
        · rfl
        · exact ih rest _

lemma pollForResponse_ok_iff {reads : List Snapshot} {c : String} :
    pollForResponse reads = Except.ok c ↔
      pollGo MAX_POLL_ATTEMPTS reads [] = some c := by
  unfold pollForResponse
  cases hp : pollGo MAX_POLL_ATTEMPTS reads [] <;> simp

lemma pollForResponse_error_iff {reads : List Snapshot} :
    pollForResponse reads = Except.error "Response did not stabilize" ↔
      pollGo MAX_POLL_ATTEMPTS reads [] = none := by
  unfold pollForResponse
  cases hp : pollGo MAX_POLL_ATTEMPTS reads [] <;> simp

/-- Decidable form of the stability condition: some index in range starts a
full window of 5 identical entries. -/
def hasStableWindowB (xs : List String) : Bool :=
  (List.range xs.length).any
    (fun i => stableHit ((xs.drop i).take 5))

lemma hasStableWindowB_iff {xs : List String} :
    hasStableWindowB xs = true ↔
      ∃ i c, ((xs.drop i).take 5) = List.replicate 5 c := by
  unfold hasStableWindowB
  rw [List.any_eq_true]
  constructor
  · rintro ⟨i, _, hhit⟩
    obtain ⟨hlen, hrep⟩ := stableHit_window hhit
    exact ⟨i, _, hrep⟩
  · rintro ⟨i, c, hwin⟩
    have hlen := congrArg List.length hwin
    simp [List.length_take, List.length_drop] at hlen
    refine ⟨i, List.mem_range.mpr (by omega), ?_⟩
    rw [hwin]
    unfold stableHit
    have : (List.replicate 5 c).length = 5 := by simp
    rw [this]
    simp only [STABILITY_CHECK_COUNT]
    rw [allSame_replicate]
    rfl

/-- C1: in the poll variant, for every sequence of snapshot reads (within
the run, whose attempt ceiling covers them all), pollForResponse declares
stability iff some window of 5 consecutive non-empty extracted assistant
contents are pairwise identical, and the declared content equals that
common value. -/
theorem poll_stability_iff (reads : List Snapshot)
    (h : reads.length ≤ MAX_POLL_ATTEMPTS) :
    ((∃ c, pollForResponse reads = Except.ok c) ↔
      ∃ i c, c ≠ "" ∧
        ((extractedContents reads).drop i).take 5 = List.replicate 5 c)
    ∧ (∀ c, pollForResponse reads = Except.ok c →
        c ≠ "" ∧ ∃ i,
          ((extractedContents reads).drop i).take 5 = List.replicate 5 c) := by
  have heq : pollGo MAX_POLL_ATTEMPTS reads [] =
      wloop (extractedContents reads) [] :=
    pollGo_eq_wloop reads MAX_POLL_ATTEMPTS [] h
  have fwd : ∀ c, pollForResponse reads = Except.ok c →
      c ≠ "" ∧ ∃ i,
        ((extractedContents reads).drop i).take 5 = List.replicate 5 c := by
    intro c hc
    have hg := pollForResponse_ok_iff.mp hc
    rw [heq] at hg
    obtain ⟨i, hi⟩ := wloop_sound _ [] c hg
    rw [List.nil_append] at hi
    have hcmem : c ∈ extractedContents reads := by
      have h5 : c ∈ List.replicate 5 c := by simp
      rw [← hi] at h5
      exact List.drop_subset _ _ (List.take_subset _ _ h5)
    exact ⟨extractedContents_ne_empty hcmem, i, hi⟩
  refine ⟨⟨?_, ?_⟩, fwd⟩
  · rintro ⟨c, hc⟩
    obtain ⟨hne, i, hi⟩ := fwd c hc
    exact ⟨i, c, hne, hi⟩
  · rintro ⟨i, c, _, hwin⟩
    obtain ⟨c', hc'⟩ :=
      wloop_complete (extractedContents reads) [] (Or.inl (by simp))
        ⟨i, c, by rw [List.nil_append]; exact hwin⟩
    exact ⟨c', pollForResponse_ok_iff.mpr (by rw [heq]; exact hc')⟩

/-- Snapshot reads of the spec scenario: transcripts growing to ABC and
then repeating unchanged. -/
def scenarioReads : List Snapshot :=
  ["A", "AB", "ABC", "ABC", "ABC", "ABC", "ABC"].map
    (fun s => (some [⟨"assistant", s⟩] : Snapshot))

/-- Witness for the C1 theorem at the spec scenario reads. -/
theorem poll_stability_iff_witness :
    ((∃ c, pollForResponse scenarioReads = Except.ok c) ↔
      ∃ i c, c ≠ "" ∧
        ((extractedContents scenarioReads).drop i).take 5 = List.replicate 5 c)
    ∧ (∀ c, pollForResponse scenarioReads = Except.ok c →
        c ≠ "" ∧ ∃ i,
          ((extractedContents scenarioReads).drop i).take 5 = List.replicate 5 c) :=
  poll_stability_iff scenarioReads (by decide)

/-- Snapshot reads whose extracted contents alternate between two values
for a full 100 attempts: no window of 5 consecutive equal reads exists. -/
def alternatingReads : List Snapshot :=
  (List.range 100).map
    (fun i => (some [⟨"assistant", if i % 2 = 0 then "A" else "B"⟩] : Snapshot))

/-- C2 counterexample: on a run that observes assistant content on every
one of its 100 attempts but never stabilizes, pollForResponse signals the
hard failure instead of returning the most recently observed content. -/
theorem poll_exhaustion_cex :
    pollForResponse alternatingReads = Except.error "Response did not stabilize"
    ∧ extractedContents alternatingReads ≠ [] := by
  constructor
  · rfl
  · decide

/-- C2 amended: if no 5-entry window stabilizes within the 100-attempt
ceiling, the run resolves with the hard failure (the thrown error), never
with the most recently observed content. -/
theorem poll_exhaustion_hard_failure (reads : List Snapshot)
    (h : ¬ ∃ i c,
      ((extractedContents (reads.take MAX_POLL_ATTEMPTS)).drop i).take 5
        = List.replicate 5 c) :
    pollForResponse reads = Except.error "Response did not stabilize" := by
  rw [pollForResponse_error_iff, pollGo_take,
    pollGo_eq_wloop _ _ _ (List.length_take_le _ _)]
  cases hw : wloop (extractedContents (reads.take MAX_POLL_ATTEMPTS)) [] with
  | none => rfl
  | some c =>
    exfalso
    obtain ⟨i, hi⟩ := wloop_sound _ [] c hw
    rw [List.nil_append] at hi
    exact h ⟨i, c, hi⟩

/-- Six alternating snapshot reads, used as the concrete witness input for
the amended C2 theorem. -/
def alternatingReads6 : List Snapshot :=
  (List.range 6).map
    (fun i => (some [⟨"assistant", if i % 2 = 0 then "A" else "B"⟩] : Snapshot))

/-- Witness for the amended C2 theorem at a concrete non-stabilizing
sequence of reads. -/
theorem poll_exhaustion_hard_failure_witness :
    pollForResponse alternatingReads6 =
      Except.error "Response did not stabilize" :=
  poll_exhaustion_hard_failure alternatingReads6
    (fun hex => absurd (hasStableWindowB_iff.mpr hex) (by decide))

/-!
Push variant (the second, streaming source file). The per-turn promise of
startStreamingResponse is modelled by a settled field (a promise settles
at most once: later resolve and reject calls are no-ops), the EventSource
by an open flag plus an input trace, and the DOM content element of the
current AI message by a displayed string.
-/

/-- JavaScript truthiness of an optional string field: present and
non-empty. -/
def truthy : Option String → Bool
  | none => false
  | some s => s != ""

/-- Settlement of the per-turn promise: resolved or rejected with a
message. -/
inductive Settle
  | success
  | failure (msg : String)
  deriving DecidableEq

/-- One server-sent event payload, as parsed from event.data by the
onmessage handler: optional error field, optional content fragment, and a
done flag. -/
structure StreamEvent where
  error : Option String := none
  content : Option String := none
  done : Bool := false
  deriving DecidableEq

/-- The session snapshot written to localStorage by saveSessionToStorage. -/
structure StoredSession where
  key : Option String
  sessionId : Option String
  model : Option String
  history : List Message
  deriving DecidableEq

/-- A request issued to the remote service by the push variant, with the
fields of its body that the client fills in. -/
inductive PushRequest
  | startSession (model : String) (history : List Message)
  | continueSession (sessionId : String) (key : String) (message : String)
  | openStream (sessionId : String) (key : String)
  deriving DecidableEq

/-- The mutable client state of the push variant: the currentSession
object, the localStorage snapshot, the per-turn stream bookkeeping, and
the DOM/UI bits the handlers read and write. -/
structure AppState where
  key : Option String := none
  sessionId : Option String := none
  model : Option String := none
  history : List Message := []
  isStreaming : Bool := false
  eventSourceOpen : Bool := false
  store : Option StoredSession := none
  fullResponse : String := ""
  displayed : String := ""
  statusText : String := ""
  inputEnabled : Bool := true
  loading : Bool := false
  settled : Option Settle := none
  errorShown : Bool := false
  requests : List PushRequest := []
  deriving DecidableEq

/-- Number of history entries kept by saveSessionToStorage
(history.slice(-20)). -/
def SAVE_LIMIT : Nat := 20

/-- saveSessionToStorage: persist key, sessionId, model and the most
recent 20 history messages. -/
def saveSessionToStorage (s : AppState) : StoredSession :=
  { key := s.key
    sessionId := s.sessionId
    model := s.model
    history := s.history.drop (s.history.length - SAVE_LIMIT) }

/-- loadSavedSession, restricted to the session fields it restores from a
parsed snapshot (UI re-rendering omitted). -/
def loadSavedSession (stored : StoredSession) (s : AppState) : AppState :=
  { s with
    key := stored.key
    sessionId := stored.sessionId
    model := stored.model
    history := stored.history }

/-- Settlement of a promise: the first resolution wins, later settlements
are no-ops. -/
def settleWith (cur : Option Settle) (v : Settle) : Option Settle :=
  match cur with
  | some w => some w
  | none => some v

/-- Error text written into the message element by the SSE onerror
handler. -/
def SSE_ERROR_TEXT : String := "Error receiving response. Please try again."

/-- Error text written into the message element by the stream timeout when
the accumulator is empty. -/
def TIMEOUT_TEXT : String := "Response timeout. Please try again."

/-- Effect of the content branch of the onmessage handler: a truthy
content fragment is appended to the accumulator and the accumulator is
displayed. -/
def applyContent (s : AppState) : Option String → AppState
  | some c =>
    if c != "" then
      { s with fullResponse := s.fullResponse ++ c,
               displayed := s.fullResponse ++ c }
    else s
  | none => s

/-- History after the done branch of the onmessage handler: the
accumulator is appended as an assistant message when non-empty. -/
def doneHistory (s : AppState) : List Message :=
  if s.fullResponse != "" then s.history ++ [⟨"assistant", s.fullResponse⟩]
  else s.history

/-- Effect of the done branch of the onmessage handler: close the channel,
append the non-empty accumulator to history, save the session snapshot
(with the updated history), restore the input state and resolve the turn
promise. -/
def finalizeDone (s : AppState) : AppState :=
  { s with eventSourceOpen := false, isStreaming := false,
           history := doneHistory s,
           store := some (saveSessionToStorage { s with history := doneHistory s }),
           inputEnabled := true, loading := false, statusText := "Ready",
           settled := settleWith s.settled Settle.success }

/-- The onmessage handler of startStreamingResponse: an error field
rejects the turn promise (and nothing else happens); otherwise the content
branch applies, and then the done branch if the event carries a done
flag. -/
def onStreamMessage (s : AppState) (e : StreamEvent) : AppState :=
  match e.error with
  | some err => { s with settled := settleWith s.settled (Settle.failure err) }
  | none =>
    if e.done then finalizeDone (applyContent s e.content)
    else applyContent s e.content

/-- The onerror handler of startStreamingResponse: close the channel,
display the error text, restore input and reject the turn promise. -/
def onStreamError (s : AppState) : AppState :=
  { s with eventSourceOpen := false, isStreaming := false,
           displayed := SSE_ERROR_TEXT,
           inputEnabled := true, loading := false,
           statusText := "Connection error",
           settled := settleWith s.settled (Settle.failure "Connection error") }

/-- The 30-second timeout callback of startStreamingResponse: a no-op
unless still streaming; otherwise close the channel, display the timeout
text only when the accumulator is empty, restore input and resolve. -/
def onStreamTimeout (s : AppState) : AppState :=
  if s.isStreaming then
    { s with eventSourceOpen := false, isStreaming := false,
             displayed := if s.fullResponse == "" then TIMEOUT_TEXT else s.displayed,
             inputEnabled := true, loading := false, statusText := "Timeout",
             settled := settleWith s.settled Settle.success }
  else s

/-- An input the environment can feed to an in-progress stream: a message
event, a transport-level error, or the timeout firing. -/
inductive StreamInput
  | msg (e : StreamEvent)
  | transportError
  | timeout
  deriving DecidableEq

/-- One environment step: message and transport-error callbacks fire only
while the EventSource is open; the timeout callback always fires but
guards itself with the isStreaming flag. -/
def streamStep (s : AppState) : StreamInput → AppState
  | StreamInput.msg e => if s.eventSourceOpen then onStreamMessage s e else s
  | StreamInput.transportError => if s.eventSourceOpen then onStreamError s else s
  | StreamInput.timeout => onStreamTimeout s

/-- Entry of startStreamingResponse: reject immediately without a session;
otherwise reset the accumulator and the message element, open the
EventSource (closing any previous one) and set the streaming flag. -/
def startStreamingInit (s : AppState) : AppState :=
  if truthy s.sessionId && truthy s.key then
    { s with eventSourceOpen := true, isStreaming := true,
             displayed := "", fullResponse := "", settled := none,
             requests := s.requests ++
               [PushRequest.openStream (s.sessionId.getD "") (s.key.getD "")] }
  else { s with settled := some (Settle.failure "No active session") }

/-- A whole streaming phase: open the channel, then process the inputs in
arrival order. -/
def runStream (s : AppState) (inputs : List StreamInput) : AppState :=
  inputs.foldl streamStep (startStreamingInit s)

/-- Parsed body of a successful start-session response. -/
structure StartData where
  key : Option String := none
  session_id : Option String := none
  deriving DecidableEq

/-- Outcome of a fetch as the client distinguishes it: a non-ok status, or
a parsed body. -/
inductive FetchResult (α : Type)
  | ok (body : α)
  | httpError
  deriving DecidableEq

/-- The remote behaviour injected into one push-variant turn: the
start-session response, whether continue-session succeeds, and the inputs
the stream phase will observe. -/
structure TurnEnv where
  startResp : FetchResult StartData
  contOk : Bool
  streamInputs : List StreamInput

/-- Whether the start-session exchange succeeds as the code tests it: ok
status and truthy key and session_id fields. -/
def startSessionOk : FetchResult StartData → Bool
  | FetchResult.httpError => false
  | FetchResult.ok d => truthy d.key && truthy d.session_id

/-- State of startNewSession once its request has been issued (status set
and the start-session body, with model and full history, posted). -/
def startRequested (s : AppState) : AppState :=
  { s with statusText := "Starting new session...",
           requests := s.requests ++
             [PushRequest.startSession (s.model.getD "") s.history] }

/-- State of startNewSession after a response with truthy key and
session_id: record them, update the status and save the session
snapshot. -/
def startSucceeded (s1 : AppState) (d : StartData) : AppState :=
  { s1 with key := d.key, sessionId := d.session_id,
            statusText := "Session started, receiving response...",
            store := some (saveSessionToStorage
              { s1 with key := d.key, sessionId := d.session_id,
                        statusText := "Session started, receiving response..." }) }

/-- startNewSession of the push variant: post model and full history; on a
truthy key and session_id, record them and save the session snapshot;
otherwise throw (second component false). -/
def startNewSession (s : AppState) (resp : FetchResult StartData) :
    AppState × Bool :=
  match resp with
  | FetchResult.httpError => (startRequested s, false)
  | FetchResult.ok d =>
    if truthy d.key && truthy d.session_id then
      (startSucceeded (startRequested s) d, true)
    else (startRequested s, false)

/-- State of continueSession once its request has been issued (status set
and the continue-session body, with session_id, key and the new message,
posted). -/
def continueRequested (s : AppState) (msg : String) : AppState :=
  { s with statusText := "Sending message...",
           requests := s.requests ++
             [PushRequest.continueSession (s.sessionId.getD "")
               (s.key.getD "") msg] }

/-- continueSession of the push variant: post session_id, key and the new
message; throw on a non-ok status. -/
def continueSessionCall (s : AppState) (msg : String) (ok : Bool) :
    AppState × Bool :=
  if ok then
    ({ continueRequested s msg with statusText := "Receiving response..." }, true)
  else (continueRequested s msg, false)

/-- The catch branch of handleSendMessage: show the failure message and
restore the input state. -/
def sendCatch (s : AppState) : AppState :=
  { s with errorShown := true, inputEnabled := true, loading := false }

/-- Return from awaiting the streaming phase: a rejected turn promise is
caught by handleSendMessage, a resolved or still-pending one is not. -/
def streamFinish (s3 : AppState) : AppState :=
  match s3.settled with
  | some (Settle.failure _) => sendCatch s3
  | _ => s3

/-- Mutations of handleSendMessage before the network phase: append the user
message to history, disable input and show the loading indicator. -/
def sendSetup (s : AppState) (message : String) : AppState :=
  { s with history := s.history ++ [⟨"user", message⟩],
           inputEnabled := false, loading := true }

/-- Session phase of handleSendMessage: start a new session when none is
established, else continue the existing one. -/
def sessionPhase (s1 : AppState) (message : String) (env : TurnEnv) :
    AppState × Bool :=
  if !(truthy s1.key && truthy s1.sessionId) then
    startNewSession s1 env.startResp
  else continueSessionCall s1 message env.contOk

/-- handleSendMessage of the push variant, on the already-trimmed input
text (the code trims messageInput.value first): guard, append the user
message to history, disable input, start or continue the session, run the
streaming phase, and apply the catch branch when any of these threw or the
turn promise was rejected. -/
def handleSendMessage (s : AppState) (message : String) (env : TurnEnv) :
    AppState :=
  if message == "" || !(truthy s.model) || s.isStreaming then s
  else
    if (sessionPhase (sendSetup s message) message env).2 then
      streamFinish
        (runStream (sessionPhase (sendSetup s message) message env).1
          env.streamInputs)
    else sendCatch (sessionPhase (sendSetup s message) message env).1

/-- Concatenation of a list of strings in order. -/
def concatAll : List String → String
  | [] => ""
  | s :: rest => s ++ concatAll rest

lemma settleWith_isSome (cur : Option Settle) (v : Settle) :
    (settleWith cur v).isSome = true := by
  cases cur <;> rfl

/-- Invariant of streaming runs: the streaming flag mirrors the open
channel, and while streaming the displayed text is exactly the
accumulator. -/
def StreamInv (s : AppState) : Prop :=
  s.isStreaming = s.eventSourceOpen ∧
    (s.isStreaming = true → s.displayed = s.fullResponse)

lemma streamInv_init {s : AppState}
    (h : (truthy s.sessionId && truthy s.key) = true) :
    StreamInv (startStreamingInit s) := by
  unfold startStreamingInit
  rw [if_pos h]
  exact ⟨rfl, fun _ => rfl⟩

lemma streamInv_applyContent {s : AppState} (hinv : StreamInv s)
    (o : Option String) : StreamInv (applyContent s o) := by
  obtain ⟨h1, h2⟩ := hinv
  cases o with
  | none => exact ⟨h1, h2⟩
  | some c =>
    rw [applyContent]
    by_cases hc : (c != "") = true
    · rw [if_pos hc]
      exact ⟨h1, fun _ => rfl⟩
    · rw [if_neg hc]
      exact ⟨h1, h2⟩

lemma streamStep_closed {s : AppState} (hof : s.eventSourceOpen = false) :
    (∀ e, streamStep s (StreamInput.msg e) = s) ∧
      streamStep s StreamInput.transportError = s := by
  constructor
  · intro e
    unfold streamStep
    rw [hof]
    rfl
  · unfold streamStep
    rw [hof]
    rfl

lemma streamInv_step (s : AppState) (i : StreamInput) (hinv : StreamInv s) :
    StreamInv (streamStep s i) := by
  obtain ⟨h1, h2⟩ := hinv
  cases i with
  | msg e =>
    cases hopen : s.eventSourceOpen with
    | false =>
      rw [(streamStep_closed hopen).1 e]
      exact ⟨h1, h2⟩
    | true =>
      have hstep : streamStep s (StreamInput.msg e) = onStreamMessage s e := by
        unfold streamStep
        rw [hopen]
        rfl
      rw [hstep]
      unfold onStreamMessage
      cases he : e.error with
      | some err => exact ⟨h1, h2⟩
      | none =>
        cases hd : e.done with
        | true =>
          rw [if_pos rfl]
          exact ⟨rfl, fun h => Bool.noConfusion h⟩
        | false =>
          rw [if_neg (by decide)]
          exact streamInv_applyContent ⟨h1, h2⟩ e.content
  | transportError =>
    cases hopen : s.eventSourceOpen with
    | false =>
      rw [(streamStep_closed hopen).2]
      exact ⟨h1, h2⟩
    | true =>
      have hstep : streamStep s StreamInput.transportError = onStreamError s := by
        unfold streamStep
        rw [hopen]
        rfl
      rw [hstep]
      exact ⟨rfl, fun h => Bool.noConfusion h⟩
  | timeout =>
    have hstep : streamStep s StreamInput.timeout = onStreamTimeout s := rfl
    rw [hstep]
    unfold onStreamTimeout
    cases hstr : s.isStreaming with
    | true =>
      rw [if_pos rfl]
      exact ⟨rfl, fun h => Bool.noConfusion h⟩
    | false =>
      rw [if_neg (by decide)]
      exact ⟨h1, h2⟩

lemma streamInv_foldl (inputs : List StreamInput) :
    ∀ (t : AppState), StreamInv t →
      StreamInv (inputs.foldl streamStep t) := by
  induction inputs with
  | nil => intro t ht; exact ht
  | cons i rest ih =>
    intro t ht
    exact ih _ (streamInv_step t i ht)

lemma streamInv_run {s : AppState} (inputs : List StreamInput)
    (h : (truthy s.sessionId && truthy s.key) = true) :
    StreamInv (runStream s inputs) :=
  streamInv_foldl inputs _ (streamInv_init h)

lemma streamStep_open_msg {s : AppState} (h : s.eventSourceOpen = true)
    (e : StreamEvent) :
    streamStep s (StreamInput.msg e) = onStreamMessage s e := by
  unfold streamStep
  rw [h]
  rfl

lemma streamStep_open_err {s : AppState} (h : s.eventSourceOpen = true) :
    streamStep s StreamInput.transportError = onStreamError s := by
  unfold streamStep
  rw [h]
  rfl

lemma startStreamingInit_of_session {s : AppState}
    (h : (truthy s.sessionId && truthy s.key) = true) :
    startStreamingInit s =
      { s with eventSourceOpen := true, isStreaming := true,
               displayed := "", fullResponse := "", settled := none,
               requests := s.requests ++
                 [PushRequest.openStream (s.sessionId.getD "") (s.key.getD "")] } := by
  unfold startStreamingInit
  rw [if_pos h]

/-- Processing a run of pure content fragments (no error, no done) appends
exactly their truthy contents, in order, to the accumulator, and leaves
the channel open. -/
lemma frags_accumulate : ∀ (frags : List StreamEvent) (t : AppState),
    t.eventSourceOpen = true →
    (∀ e ∈ frags, e.error = none ∧ e.done = false) →
    ((frags.map StreamInput.msg).foldl streamStep t).fullResponse
        = t.fullResponse ++ concatAll (frags.filterMap StreamEvent.content)
    ∧ ((frags.map StreamInput.msg).foldl streamStep t).eventSourceOpen = true := by
  intro frags
  induction frags with
  | nil =>
    intro t ht _
    exact ⟨(String.append_empty _).symm, ht⟩
  | cons e rest ih =>
    intro t ht hall
    have he := hall e (by simp)
    have hrest : ∀ x ∈ rest, x.error = none ∧ x.done = false :=
      fun x hx => hall x (by simp [hx])
    have hstep : streamStep t (StreamInput.msg e) = applyContent t e.content := by
      rw [streamStep_open_msg ht]
      unfold onStreamMessage
      rw [he.1, he.2]
      simp
    have hopen : (applyContent t e.content).eventSourceOpen = t.eventSourceOpen := by
      cases hc : e.content with
      | none => rfl
      | some c =>
        rw [applyContent]
        split <;> rfl
    rw [List.map_cons, List.foldl_cons, hstep]
    obtain ⟨hfull, hopen'⟩ :=
      ih (applyContent t e.content) (by rw [hopen]; exact ht) hrest
    refine ⟨?_, hopen'⟩
    rw [hfull]
    cases hc : e.content with
    | none =>
      rw [List.filterMap_cons_none hc]
      rfl
    | some c =>
      rw [List.filterMap_cons_some hc]
      rw [show concatAll (c :: rest.filterMap StreamEvent.content)
        = c ++ concatAll (rest.filterMap StreamEvent.content) from rfl]
      by_cases hcp : (c != "") = true
      · rw [applyContent, if_pos hcp]
        exact String.append_assoc _ _ _
      · have hceq : c = "" := by
          have hbeq : (c == "") = true := by
            cases hv : (c == "") with
            | false => exact absurd (by simp [bne, hv]) hcp
            | true => rfl
          exact eq_of_beq hbeq
        subst hceq
        rw [applyContent, if_neg hcp, String.empty_append]

/-- C3: in the push variant, for every sequence of incremental fragment
events received before a completion signal, the final accumulated text
equals the concatenation of the fragment contents in arrival order, and
every step of the stream machine can only append to the accumulator
(appending is the only mutation path for partial text). -/
theorem stream_accumulates (s0 : AppState) (frags : List StreamEvent)
    (hsess : (truthy s0.sessionId && truthy s0.key) = true)
    (hfr : ∀ e ∈ frags, e.error = none ∧ e.done = false) :
    (runStream s0
        (frags.map StreamInput.msg ++ [StreamInput.msg { done := true }])).fullResponse
      = concatAll (frags.filterMap StreamEvent.content)
    ∧ ∀ (t : AppState) (i : StreamInput), ∃ suffix,
        (streamStep t i).fullResponse = t.fullResponse ++ suffix := by
  constructor
  · unfold runStream
    rw [List.foldl_append, List.foldl_cons, List.foldl_nil]
    have hinit_open : (startStreamingInit s0).eventSourceOpen = true := by
      rw [startStreamingInit_of_session hsess]
    have hinit_full : (startStreamingInit s0).fullResponse = "" := by
      rw [startStreamingInit_of_session hsess]
    obtain ⟨hfull, hopen⟩ :=
      frags_accumulate frags (startStreamingInit s0) hinit_open hfr
    rw [streamStep_open_msg hopen]
    rw [show onStreamMessage
        ((frags.map StreamInput.msg).foldl streamStep (startStreamingInit s0))
        { done := true }
      = finalizeDone
          ((frags.map StreamInput.msg).foldl streamStep (startStreamingInit s0))
      from rfl]
    rw [show ∀ u : AppState, (finalizeDone u).fullResponse = u.fullResponse
      from fun _ => rfl]
    rw [hfull, hinit_full, String.empty_append]
  · intro t i
    cases i with
    | msg e =>
      cases hopen : t.eventSourceOpen with
      | false =>
        exact ⟨"", by rw [(streamStep_closed hopen).1 e, String.append_empty]⟩
      | true =>
        rw [streamStep_open_msg hopen]
        unfold onStreamMessage
        cases he : e.error with
        | some err => exact ⟨"", (String.append_empty _).symm⟩
        | none =>
          have happ : ∃ suffix,
              (applyContent t e.content).fullResponse
                = t.fullResponse ++ suffix := by
            cases hc : e.content with
            | none => exact ⟨"", (String.append_empty _).symm⟩
            | some c =>
              by_cases hcp : (c != "") = true
              · exact ⟨c, by rw [applyContent, if_pos hcp]⟩
              · exact ⟨"", by rw [applyContent, if_neg hcp, String.append_empty]⟩
          obtain ⟨suf, hsuf⟩ := happ
          cases hd : e.done with
          | true =>
            refine ⟨suf, ?_⟩
            rw [if_pos rfl]
            rw [show ∀ u : AppState, (finalizeDone u).fullResponse = u.fullResponse
              from fun _ => rfl]
            exact hsuf
          | false =>
            refine ⟨suf, ?_⟩
            rw [if_neg (by decide)]
            exact hsuf
    | transportError =>
      cases hopen : t.eventSourceOpen with
      | false =>
        exact ⟨"", by rw [(streamStep_closed hopen).2, String.append_empty]⟩
      | true =>
        rw [streamStep_open_err hopen]
        exact ⟨"", (String.append_empty _).symm⟩
    | timeout =>
      rw [show streamStep t StreamInput.timeout = onStreamTimeout t from rfl]
      unfold onStreamTimeout
      cases hstr : t.isStreaming with
      | true =>
        rw [if_pos rfl]
        exact ⟨"", (String.append_empty _).symm⟩
      | false =>
        rw [if_neg (by decide)]
        exact ⟨"", (String.append_empty _).symm⟩

/-- A state with an established session, used as witness input. -/
def demoSession : AppState :=
  { key := some "k1", sessionId := some "s1", model := some "gpt-b" }

/-- Witness for the C3 theorem: the spec scenario fragments He, llo
followed by done accumulate to Hello. -/
theorem stream_accumulates_witness :
    (runStream demoSession
        (([({ content := some "He" } : StreamEvent),
           { content := some "llo" }].map StreamInput.msg)
          ++ [StreamInput.msg { done := true }])).fullResponse
      = concatAll
          (([({ content := some "He" } : StreamEvent),
             { content := some "llo" }]).filterMap StreamEvent.content)
    ∧ ∀ (t : AppState) (i : StreamInput), ∃ suffix,
        (streamStep t i).fullResponse = t.fullResponse ++ suffix :=
  stream_accumulates demoSession
    [{ content := some "He" }, { content := some "llo" }]
    (by decide) (by decide)

/-- C4: in the push variant, when the timeout fires on a still-streaming
turn (no completion signal arrived within the deadline), the channel is
force-closed and the turn resolves; a non-empty accumulator stays
displayed as the final result, an empty accumulator surfaces the timeout
failure message. -/
theorem stream_timeout_resolves (s0 : AppState) (inputs : List StreamInput)
    (hsess : (truthy s0.sessionId && truthy s0.key) = true)
    (hstr : (runStream s0 inputs).isStreaming = true) :
    (streamStep (runStream s0 inputs) StreamInput.timeout).eventSourceOpen = false
    ∧ (streamStep (runStream s0 inputs) StreamInput.timeout).isStreaming = false
    ∧ (streamStep (runStream s0 inputs) StreamInput.timeout).settled.isSome = true
    ∧ ((runStream s0 inputs).fullResponse ≠ "" →
        (streamStep (runStream s0 inputs) StreamInput.timeout).displayed
            = (runStream s0 inputs).fullResponse
        ∧ (streamStep (runStream s0 inputs) StreamInput.timeout).fullResponse
            = (runStream s0 inputs).fullResponse)
    ∧ ((runStream s0 inputs).fullResponse = "" →
        (streamStep (runStream s0 inputs) StreamInput.timeout).displayed
          = TIMEOUT_TEXT)
    ∧ ((runStream s0 inputs).settled = none →
        (streamStep (runStream s0 inputs) StreamInput.timeout).settled
          = some Settle.success) := by
  obtain ⟨hio, hdisp⟩ := @streamInv_run s0 inputs hsess
  set s := runStream s0 inputs with hs
  have hd : s.displayed = s.fullResponse := hdisp hstr
  have hto : streamStep s StreamInput.timeout = onStreamTimeout s := rfl
  rw [hto]
  unfold onStreamTimeout
  rw [hstr, if_pos rfl]
  refine ⟨rfl, rfl, settleWith_isSome _ _, ?_, ?_, ?_⟩
  · intro hne
    have hcond : (s.fullResponse == "") = false := by
      cases hv : (s.fullResponse == "") with
      | true => exact absurd (eq_of_beq hv) hne
      | false => rfl
    constructor
    · show (if (s.fullResponse == "") = true then TIMEOUT_TEXT else s.displayed)
        = s.fullResponse
      rw [hcond, if_neg (by decide)]
      exact hd
    · rfl
  · intro heq
    show (if (s.fullResponse == "") = true then TIMEOUT_TEXT else s.displayed)
      = TIMEOUT_TEXT
    rw [heq]
    rfl
  · intro hnone
    show settleWith s.settled Settle.success = some Settle.success
    rw [hnone]
    rfl

/-- Witness for the C4 theorem: a turn with one partial fragment and no
completion signal, timed out. -/
theorem stream_timeout_resolves_witness :
    (streamStep (runStream demoSession [StreamInput.msg { content := some "Par" }])
        StreamInput.timeout).eventSourceOpen = false
    ∧ (streamStep (runStream demoSession [StreamInput.msg { content := some "Par" }])
        StreamInput.timeout).isStreaming = false
    ∧ (streamStep (runStream demoSession [StreamInput.msg { content := some "Par" }])
        StreamInput.timeout).settled.isSome = true
    ∧ ((runStream demoSession [StreamInput.msg { content := some "Par" }]).fullResponse ≠ "" →
        (streamStep (runStream demoSession [StreamInput.msg { content := some "Par" }])
            StreamInput.timeout).displayed
          = (runStream demoSession [StreamInput.msg { content := some "Par" }]).fullResponse
        ∧ (streamStep (runStream demoSession [StreamInput.msg { content := some "Par" }])
            StreamInput.timeout).fullResponse
          = (runStream demoSession [StreamInput.msg { content := some "Par" }]).fullResponse)
    ∧ ((runStream demoSession [StreamInput.msg { content := some "Par" }]).fullResponse = "" →
        (streamStep (runStream demoSession [StreamInput.msg { content := some "Par" }])
            StreamInput.timeout).displayed = TIMEOUT_TEXT)
    ∧ ((runStream demoSession [StreamInput.msg { content := some "Par" }]).settled = none →
        (streamStep (runStream demoSession [StreamInput.msg { content := some "Par" }])
            StreamInput.timeout).settled = some Settle.success) :=
  stream_timeout_resolves demoSession [StreamInput.msg { content := some "Par" }]
    (by decide) (by rfl)

/-- C5: in the push variant, the timeout firing after a completion signal
has already resolved the turn is a no-op on the whole state; in
particular it does not append a second history entry. -/
theorem timeout_after_completion_noop (s0 : AppState) (inputs : List StreamInput)
    (e : StreamEvent) (hsess : (truthy s0.sessionId && truthy s0.key) = true)
    (herr : e.error = none) (hdone : e.done = true) :
    streamStep (runStream s0 (inputs ++ [StreamInput.msg e])) StreamInput.timeout
      = runStream s0 (inputs ++ [StreamInput.msg e])
    ∧ (streamStep (runStream s0 (inputs ++ [StreamInput.msg e]))
        StreamInput.timeout).history
      = (runStream s0 (inputs ++ [StreamInput.msg e])).history := by
  have hrun : runStream s0 (inputs ++ [StreamInput.msg e])
      = streamStep (runStream s0 inputs) (StreamInput.msg e) := by
    unfold runStream
    rw [List.foldl_append, List.foldl_cons, List.foldl_nil]
  obtain ⟨hio, _⟩ := @streamInv_run s0 inputs hsess
  have hnotstr :
      (streamStep (runStream s0 inputs) (StreamInput.msg e)).isStreaming = false := by
    set u := runStream s0 inputs with hu
    cases hopen : u.eventSourceOpen with
    | false =>
      rw [(streamStep_closed hopen).1 e]
      rw [hio]
      exact hopen
    | true =>
      rw [streamStep_open_msg hopen]
      unfold onStreamMessage
      rw [herr, hdone]
      rfl
  have hmain :
      streamStep (streamStep (runStream s0 inputs) (StreamInput.msg e))
          StreamInput.timeout
        = streamStep (runStream s0 inputs) (StreamInput.msg e) := by
    rw [show streamStep (streamStep (runStream s0 inputs) (StreamInput.msg e))
          StreamInput.timeout
        = onStreamTimeout (streamStep (runStream s0 inputs) (StreamInput.msg e))
      from rfl]
    unfold onStreamTimeout
    rw [hnotstr, if_neg (by decide)]
  rw [hrun]
  exact ⟨hmain, by rw [hmain]⟩

/-- Witness for the C5 theorem: a fragment followed by a completion
signal, then the timeout fires. -/
theorem timeout_after_completion_noop_witness :
    streamStep
        (runStream demoSession
          ([StreamInput.msg { content := some "Hi" }]
            ++ [StreamInput.msg { done := true }]))
        StreamInput.timeout
      = runStream demoSession
          ([StreamInput.msg { content := some "Hi" }]
            ++ [StreamInput.msg { done := true }])
    ∧ (streamStep
        (runStream demoSession
          ([StreamInput.msg { content := some "Hi" }]
            ++ [StreamInput.msg { done := true }]))
        StreamInput.timeout).history
      = (runStream demoSession
          ([StreamInput.msg { content := some "Hi" }]
            ++ [StreamInput.msg { done := true }])).history :=
  timeout_after_completion_noop demoSession
    [StreamInput.msg { content := some "Hi" }] { done := true }
    (by decide) rfl rfl

/-- A freshly opened stream for the demo session. -/
def openStreamState : AppState := startStreamingInit demoSession

/-- C7 counterexample: an error field in a message event rejects the turn,
but the onmessage handler does not close the channel; the EventSource
stays open. -/
theorem error_event_channel_stays_open_cex :
    (streamStep openStreamState
        (StreamInput.msg { error := some "boom" })).eventSourceOpen = true
    ∧ (streamStep openStreamState
        (StreamInput.msg { error := some "boom" })).settled
      = some (Settle.failure "boom") := by
  exact ⟨rfl, rfl⟩

/-- C7 amended: on a transport-level error the channel is closed, the
failure text is displayed and nothing is appended to history; on an error
field in an event the turn promise is rejected (the controller surfaces
the failure) and nothing is appended to history or to the store, but the
channel is not closed by the handler. -/
theorem error_signal_handling (s : AppState) (e : StreamEvent) (err : String)
    (hopen : s.eventSourceOpen = true) (he : e.error = some err) :
    ((streamStep s (StreamInput.msg e)).eventSourceOpen = true
      ∧ (streamStep s (StreamInput.msg e)).history = s.history
      ∧ (streamStep s (StreamInput.msg e)).store = s.store
      ∧ (streamStep s (StreamInput.msg e)).settled
          = settleWith s.settled (Settle.failure err))
    ∧ ((streamStep s StreamInput.transportError).eventSourceOpen = false
      ∧ (streamStep s StreamInput.transportError).history = s.history
      ∧ (streamStep s StreamInput.transportError).store = s.store
      ∧ (streamStep s StreamInput.transportError).displayed = SSE_ERROR_TEXT
      ∧ (streamStep s StreamInput.transportError).settled
          = settleWith s.settled (Settle.failure "Connection error")) := by
  constructor
  · rw [streamStep_open_msg hopen]
    unfold onStreamMessage
    rw [he]
    exact ⟨hopen, rfl, rfl, rfl⟩
  · rw [streamStep_open_err hopen]
    exact ⟨rfl, rfl, rfl, rfl, rfl⟩

/-- Witness for the amended C7 theorem at a concrete open stream and a
concrete error event. -/
theorem error_signal_handling_witness :
    ((streamStep openStreamState
        (StreamInput.msg { error := some "boom" })).eventSourceOpen = true
      ∧ (streamStep openStreamState
          (StreamInput.msg { error := some "boom" })).history
        = openStreamState.history
      ∧ (streamStep openStreamState
          (StreamInput.msg { error := some "boom" })).store
        = openStreamState.store
      ∧ (streamStep openStreamState
          (StreamInput.msg { error := some "boom" })).settled
        = settleWith openStreamState.settled (Settle.failure "boom"))
    ∧ ((streamStep openStreamState StreamInput.transportError).eventSourceOpen
        = false
      ∧ (streamStep openStreamState StreamInput.transportError).history
        = openStreamState.history
      ∧ (streamStep openStreamState StreamInput.transportError).store
        = openStreamState.store
      ∧ (streamStep openStreamState StreamInput.transportError).displayed
        = SSE_ERROR_TEXT
      ∧ (streamStep openStreamState StreamInput.transportError).settled
        = settleWith openStreamState.settled
            (Settle.failure "Connection error")) :=
  error_signal_handling openStreamState { error := some "boom" } "boom" rfl rfl

/-- Inputs that carry no completion signal: only the done branch of the
onmessage handler writes the store. -/
def noDoneInput : StreamInput → Bool
  | StreamInput.msg e => !e.done
  | StreamInput.transportError => true
  | StreamInput.timeout => true

lemma streamStep_store_of_noDone (s : AppState) (i : StreamInput)
    (h : noDoneInput i = true) : (streamStep s i).store = s.store := by
  cases i with
  | msg e =>
    cases hopen : s.eventSourceOpen with
    | false => rw [(streamStep_closed hopen).1 e]
    | true =>
      rw [streamStep_open_msg hopen]
      unfold onStreamMessage
      cases he : e.error with
      | some err => rfl
      | none =>
        have hd : e.done = false := by
          cases hv : e.done with
          | false => rfl
          | true =>
            rw [show noDoneInput (StreamInput.msg e) = !e.done from rfl, hv] at h
            exact absurd h (by decide)
        rw [hd, if_neg (by decide)]
        cases hc : e.content with
        | none => rfl
        | some c =>
          rw [applyContent]
          by_cases hcp : (c != "") = true
          · rw [if_pos hcp]
          · rw [if_neg hcp]
  | transportError =>
    cases hopen : s.eventSourceOpen with
    | false => rw [(streamStep_closed hopen).2]
    | true =>
      rw [streamStep_open_err hopen]
      unfold onStreamError
      rfl
  | timeout =>
    rw [show streamStep s StreamInput.timeout = onStreamTimeout s from rfl]
    unfold onStreamTimeout
    cases hstr : s.isStreaming with
    | true => rw [if_pos rfl]
    | false => rw [if_neg (by decide)]

lemma stream_store_preserved : ∀ (inputs : List StreamInput) (t : AppState),
    (∀ i ∈ inputs, noDoneInput i = true) →
    (inputs.foldl streamStep t).store = t.store := by
  intro inputs
  induction inputs with
  | nil => intro t _; rfl
  | cons i rest ih =>
    intro t h
    rw [List.foldl_cons]
    rw [ih _ (fun x hx => h x (List.mem_cons_of_mem _ hx))]
    exact streamStep_store_of_noDone t i (h i (List.mem_cons_self _ _))

lemma startStreamingInit_store (s : AppState) :
    (startStreamingInit s).store = s.store := by
  unfold startStreamingInit
  split <;> rfl

lemma streamFinish_store (s3 : AppState) :
    (streamFinish s3).store = s3.store := by
  unfold streamFinish
  split <;> rfl

lemma sendCatch_store (x : AppState) : (sendCatch x).store = x.store := rfl

lemma sessionPhase_new {s1 : AppState} {m : String} {env : TurnEnv}
    (h : (truthy s1.key && truthy s1.sessionId) = false) :
    sessionPhase s1 m env = startNewSession s1 env.startResp := by
  unfold sessionPhase
  rw [h]
  rw [if_pos (by decide)]

lemma sessionPhase_cont {s1 : AppState} {m : String} {env : TurnEnv}
    (h : (truthy s1.key && truthy s1.sessionId) = true) :
    sessionPhase s1 m env = continueSessionCall s1 m env.contOk := by
  unfold sessionPhase
  rw [h]
  rw [if_neg (by decide)]

lemma startNewSession_snd (s1 : AppState) (resp : FetchResult StartData) :
    (startNewSession s1 resp).2 = startSessionOk resp := by
  cases resp with
  | httpError => rfl
  | ok d =>
    show (if (truthy d.key && truthy d.session_id) = true
        then (startSucceeded (startRequested s1) d, true)
        else (startRequested s1, false)).2
      = (truthy d.key && truthy d.session_id)
    by_cases hd : (truthy d.key && truthy d.session_id) = true
    · rw [if_pos hd, hd]
    · have hdf : (truthy d.key && truthy d.session_id) = false := by
        cases hv : (truthy d.key && truthy d.session_id) with
        | false => rfl
        | true => exact absurd hv hd
      rw [if_neg hd, hdf]

lemma startNewSession_fail_store (s1 : AppState) (resp : FetchResult StartData)
    (h : startSessionOk resp = false) :
    (startNewSession s1 resp).1.store = s1.store := by
  cases resp with
  | httpError => rfl
  | ok d =>
    have hdf : (truthy d.key && truthy d.session_id) = false := h
    show (if (truthy d.key && truthy d.session_id) = true
        then (startSucceeded (startRequested s1) d, true)
        else (startRequested s1, false)).1.store = s1.store
    rw [hdf, if_neg (by decide)]
    rfl

lemma continueSessionCall_snd (s1 : AppState) (m : String) (ok : Bool) :
    (continueSessionCall s1 m ok).2 = ok := by
  unfold continueSessionCall
  cases ok with
  | true => rw [if_pos rfl]
  | false => rw [if_neg (by decide)]

lemma continueSessionCall_fst_store (s1 : AppState) (m : String) (ok : Bool) :
    (continueSessionCall s1 m ok).1.store = s1.store := by
  unfold continueSessionCall
  cases ok with
  | true =>
    rw [if_pos rfl]
    rfl
  | false =>
    rw [if_neg (by decide)]
    rfl

/-- A fresh app state with only a model selected, used for the C6
scenario: no session yet, nothing persisted. -/
def freshApp : AppState := { model := some "m" }

/-- A turn environment in which the start-session call succeeds but the
stream then reports an in-event error. -/
def failingStreamEnv : TurnEnv :=
  { startResp := FetchResult.ok { key := some "k", session_id := some "s1" },
    contOk := true,
    streamInputs := [StreamInput.msg { error := some "boom" }] }

/-- C6 counterexample: a first turn whose start-session succeeds but whose
stream then fails ends in a visible failure, yet the store was written
during the turn (it now holds the snapshot with the user message),
differing from its value before the turn began. -/
theorem failed_turn_writes_store_cex :
    (handleSendMessage freshApp "hi" failingStreamEnv).errorShown = true
    ∧ (handleSendMessage freshApp "hi" failingStreamEnv).store ≠ freshApp.store := by
  exact ⟨rfl, by decide⟩

/-- C6 amended: a turn that fails in the start-session or the
continue-session exchange leaves the persisted snapshot unchanged, and so
does an established-session turn whose stream delivers no completion
signal; but on a new-session turn a successful start-session persists the
snapshot (with the new user message) at once, so a failure later in the
same turn leaves that write in place. -/
theorem failed_turn_store (s : AppState) (msg : String) (env : TurnEnv)
    (h : ((truthy s.key && truthy s.sessionId) = false
            ∧ startSessionOk env.startResp = false)
      ∨ ((truthy s.key && truthy s.sessionId) = true ∧ env.contOk = false)
      ∨ ((truthy s.key && truthy s.sessionId) = true ∧ env.contOk = true
            ∧ ∀ i ∈ env.streamInputs, noDoneInput i = true)) :
    (handleSendMessage s msg env).store = s.store := by
  unfold handleSendMessage
  by_cases hguard : (msg == "" || !(truthy s.model) || s.isStreaming) = true
  · rw [if_pos hguard]
  · rw [if_neg hguard]
    rcases h with ⟨hns, hsf⟩ | ⟨hes, hcf⟩ | ⟨hes, hct, hnd⟩
    · rw [@sessionPhase_new (sendSetup s msg) msg env hns, startNewSession_snd,
        hsf, if_neg (by decide), sendCatch_store,
        startNewSession_fail_store _ _ hsf]
      rfl
    · rw [@sessionPhase_cont (sendSetup s msg) msg env hes,
        continueSessionCall_snd, hcf, if_neg (by decide),
        sendCatch_store, continueSessionCall_fst_store]
      rfl
    · rw [@sessionPhase_cont (sendSetup s msg) msg env hes,
        continueSessionCall_snd, hct, if_pos rfl, streamFinish_store]
      unfold runStream
      rw [stream_store_preserved env.streamInputs _ hnd, startStreamingInit_store,
        continueSessionCall_fst_store]
      rfl

/-- An idle environment: the start-session call fails and nothing arrives
on any stream. -/
def idleEnv : TurnEnv :=
  { startResp := FetchResult.httpError, contOk := false, streamInputs := [] }

/-- Witness for the amended C6 theorem: a first turn whose start-session
call fails leaves the store unchanged. -/
theorem failed_turn_store_witness :
    (handleSendMessage freshApp "hi" idleEnv).store = freshApp.store :=
  failed_turn_store freshApp "hi" idleEnv (Or.inl ⟨rfl, rfl⟩)

/-!
Session persistence (C9): save and load of the session snapshot.
-/

lemma streamStep_requests (t : AppState) (i : StreamInput) :
    (streamStep t i).requests = t.requests := by
  cases i with
  | msg e =>
    cases hopen : t.eventSourceOpen with
    | false => rw [(streamStep_closed hopen).1 e]
    | true =>
      rw [streamStep_open_msg hopen]
      unfold onStreamMessage
      cases he : e.error with
      | some err => rfl
      | none =>
        have happ : (applyContent t e.content).requests = t.requests := by
          cases hc : e.content with
          | none => rfl
          | some c =>
            rw [applyContent]
            by_cases hcp : (c != "") = true
            · rw [if_pos hcp]
            · rw [if_neg hcp]
        cases hd : e.done with
        | true =>
          rw [if_pos rfl]
          rw [show ∀ u : AppState, (finalizeDone u).requests = u.requests
            from fun _ => rfl]
          exact happ
        | false =>
          rw [if_neg (by decide)]
          exact happ
  | transportError =>
    cases hopen : t.eventSourceOpen with
    | false => rw [(streamStep_closed hopen).2]
    | true =>
      rw [streamStep_open_err hopen]
      unfold onStreamError
      rfl
  | timeout =>
    rw [show streamStep t StreamInput.timeout = onStreamTimeout t from rfl]
    unfold onStreamTimeout
    cases hstr : t.isStreaming with
    | true => rw [if_pos rfl]
    | false => rw [if_neg (by decide)]

lemma foldl_requests (inputs : List StreamInput) :
    ∀ t : AppState, (inputs.foldl streamStep t).requests = t.requests := by
  induction inputs with
  | nil => intro t; rfl
  | cons i rest ih =>
    intro t
    rw [List.foldl_cons, ih, streamStep_requests]

lemma runStream_requests (t : AppState) (inputs : List StreamInput) :
    ∃ extra, (runStream t inputs).requests = t.requests ++ extra := by
  unfold runStream
  rw [foldl_requests]
  unfold startStreamingInit
  by_cases h : (truthy t.sessionId && truthy t.key) = true
  · rw [if_pos h]
    exact ⟨_, rfl⟩
  · rw [if_neg h]
    exact ⟨[], (List.append_nil _).symm⟩

lemma streamFinish_requests (x : AppState) :
    (streamFinish x).requests = x.requests := by
  unfold streamFinish
  split <;> rfl

lemma startNewSession_fst_requests (s1 : AppState) (resp : FetchResult StartData) :
    (startNewSession s1 resp).1.requests
      = s1.requests ++ [PushRequest.startSession (s1.model.getD "") s1.history] := by
  cases resp with
  | httpError => rfl
  | ok d =>
    show (if (truthy d.key && truthy d.session_id) = true
        then (startSucceeded (startRequested s1) d, true)
        else (startRequested s1, false)).1.requests = _
    by_cases hd : (truthy d.key && truthy d.session_id) = true
    · rw [if_pos hd]
      rfl
    · rw [if_neg hd]
      rfl

lemma last_n_eq_drop (l : List Message) (n : Nat) :
    (l.reverse.take n).reverse = l.drop (l.length - n) := by
  rw [List.take_reverse, List.reverse_reverse]

/-- C9: save followed by load of a session with history of length at most
20 reproduces key, sessionId, model and history; in general only the most
recent 20 messages are persisted; and the in-memory history posted by a
new-session turn (the start-session request body) is never truncated. -/
theorem session_roundtrip (s : AppState) (base : AppState) :
    (s.history.length ≤ 20 →
      (loadSavedSession (saveSessionToStorage s) base).key = s.key
      ∧ (loadSavedSession (saveSessionToStorage s) base).sessionId = s.sessionId
      ∧ (loadSavedSession (saveSessionToStorage s) base).model = s.model
      ∧ (loadSavedSession (saveSessionToStorage s) base).history = s.history)
    ∧ (saveSessionToStorage s).history = (s.history.reverse.take 20).reverse
    ∧ (∀ (msg : String) (env : TurnEnv),
        (msg == "") = false → truthy s.model = true → s.isStreaming = false →
        (truthy s.key && truthy s.sessionId) = false →
        ∃ rest, (handleSendMessage s msg env).requests
          = s.requests
            ++ [PushRequest.startSession (s.model.getD "")
                  (s.history ++ [⟨"user", msg⟩])]
            ++ rest) := by
  refine ⟨?_, ?_, ?_⟩
  · intro hlen
    refine ⟨rfl, rfl, rfl, ?_⟩
    show (saveSessionToStorage s).history = s.history
    unfold saveSessionToStorage SAVE_LIMIT
    rw [show s.history.length - 20 = 0 by omega, List.drop_zero]
  · rw [last_n_eq_drop]
    rfl
  · intro msg env hmsg hmodel hstreaming hns
    unfold handleSendMessage
    have hguard : (msg == "" || !(truthy s.model) || s.isStreaming) = false := by
      rw [hmsg, hmodel, hstreaming]
      rfl
    rw [if_neg (by rw [hguard]; exact fun hcontra => Bool.noConfusion hcontra)]
    rw [@sessionPhase_new (sendSetup s msg) msg env hns]
    by_cases hok : (startNewSession (sendSetup s msg) env.startResp).2 = true
    · rw [if_pos hok, streamFinish_requests]
      obtain ⟨extra, hextra⟩ :=
        runStream_requests (startNewSession (sendSetup s msg) env.startResp).1
          env.streamInputs
      rw [hextra, startNewSession_fst_requests]
      exact ⟨extra, rfl⟩
    · rw [if_neg hok]
      rw [show ∀ x : AppState, (sendCatch x).requests = x.requests
        from fun _ => rfl]
      rw [startNewSession_fst_requests]
      refine ⟨[], ?_⟩
      rw [List.append_nil]
      rfl

/-- Witness for the C9 theorem: round trip of a short-history session, the
persisted suffix shape, and a fresh-session turn posting the full
history. -/
theorem session_roundtrip_witness :
    ((loadSavedSession (saveSessionToStorage freshApp) demoSession).key = freshApp.key
      ∧ (loadSavedSession (saveSessionToStorage freshApp) demoSession).sessionId
          = freshApp.sessionId
      ∧ (loadSavedSession (saveSessionToStorage freshApp) demoSession).model
          = freshApp.model
      ∧ (loadSavedSession (saveSessionToStorage freshApp) demoSession).history
          = freshApp.history)
    ∧ ∃ rest, (handleSendMessage freshApp "hi" idleEnv).requests
        = freshApp.requests
          ++ [PushRequest.startSession (freshApp.model.getD "")
                (freshApp.history ++ [⟨"user", "hi"⟩])]
          ++ rest :=
  ⟨(session_roundtrip freshApp demoSession).1 (by decide),
   (session_roundtrip freshApp demoSession).2.2 "hi" idleEnv rfl rfl rfl rfl⟩

/-!
Poll-variant turn handling (script.js): handleSendMessage, startNewSession
and getSessionResponse around the poll loop. Requests are logged to
witness what is actually transmitted to the remote service.
-/

/-- A request issued to the remote service by the poll variant, with the
fields of its body that the client fills in. -/
inductive PollRequest
  | startSession (model : String) (history : List Message)
  | getSession (key : String) (sessionId : String)
  deriving DecidableEq

/-- The mutable client state of the poll variant. -/
structure PollApp where
  key : Option String := none
  sessionId : Option String := none
  model : Option String := none
  history : List Message := []
  isWaitingForResponse : Bool := false
  inputEnabled : Bool := true
  statusText : String := ""
  errorShown : Bool := false
  requests : List PollRequest := []
  deriving DecidableEq

/-- Number of snapshot reads the poll loop performs (one get-session
request per iteration), mirroring pollGo. -/
def pollGoN : Nat → List Snapshot → List String → Nat
  | 0, _, _ => 0
  | _ + 1, [], _ => 0
  | fuel + 1, r :: rest, w =>
    match readExtract r with
    | none => pollGoN fuel rest w + 1
    | some c =>
      if stableHit (pushWindow w c) then 1
      else pollGoN fuel rest (pushWindow w c) + 1

/-- The get-session requests issued by one poll run: one identical
request body (key and session_id only) per performed read. -/
def pollRequests (key sid : String) (reads : List Snapshot) : List PollRequest :=
  List.replicate (pollGoN MAX_POLL_ATTEMPTS reads []) (PollRequest.getSession key sid)

/-- Completion of a poll-variant turn once a session exists: run
pollForResponse, append the stable content to history on success, or show
the failure on the thrown error; either way re-enable input. -/
def pollTurnAfterSession (s : PollApp) (reads : List Snapshot) : PollApp :=
  match pollForResponse reads with
  | Except.ok c =>
    { s with
      requests :=
        s.requests ++ pollRequests (s.key.getD "") (s.sessionId.getD "") reads,
      history := s.history ++ [⟨"assistant", c⟩],
      statusText := "Ready", isWaitingForResponse := false, inputEnabled := true }
  | Except.error _ =>
    { s with
      requests :=
        s.requests ++ pollRequests (s.key.getD "") (s.sessionId.getD "") reads,
      errorShown := true, isWaitingForResponse := false, inputEnabled := true }

/-- Mutations of the poll-variant handleSendMessage before any request:
append the user message to history and disable input. -/
def pollSetup (s : PollApp) (message : String) : PollApp :=
  { s with history := s.history ++ [⟨"user", message⟩],
           isWaitingForResponse := true, inputEnabled := false }

/-- State of the poll-variant startNewSession once its request (model and
full history) has been posted. -/
def pollStartRequested (s : PollApp) : PollApp :=
  { s with statusText := "Starting new session...",
           requests := s.requests ++
             [PollRequest.startSession (s.model.getD "") s.history] }

/-- The catch branch of the poll-variant handleSendMessage: show the
failure and restore the input state. -/
def pollCatch (s : PollApp) : PollApp :=
  { s with errorShown := true, isWaitingForResponse := false,
           inputEnabled := true }

/-- State of the poll-variant startNewSession after a response with truthy
key and session_id. -/
def pollStartSucceeded (s1 : PollApp) (d : StartData) : PollApp :=
  { s1 with key := d.key, sessionId := d.session_id,
            statusText := "Session started" }

/-- Status update of getSessionResponse before polling. -/
def pollGetting (s1 : PollApp) : PollApp :=
  { s1 with statusText := "Getting response..." }

/-- handleSendMessage of the poll variant, on the already-trimmed input
text: guard, append the user message, then either start a new session
(posting model and full history) and poll, or — when a session is already
established — only poll get-session via getSessionResponse; the new
message itself is not part of any request in that branch. -/
def pollHandleSendMessage (s : PollApp) (message : String)
    (reads : List Snapshot) (startResp : FetchResult StartData) : PollApp :=
  if message == "" || !(truthy s.model) || s.isWaitingForResponse then s
  else
    if !(truthy (pollSetup s message).key && truthy (pollSetup s message).sessionId) then
      match startResp with
      | FetchResult.httpError => pollCatch (pollStartRequested (pollSetup s message))
      | FetchResult.ok d =>
        if truthy d.key && truthy d.session_id then
          pollTurnAfterSession
            (pollStartSucceeded (pollStartRequested (pollSetup s message)) d) reads
        else pollCatch (pollStartRequested (pollSetup s message))
    else
      pollTurnAfterSession (pollGetting (pollSetup s message)) reads

/-- Whether a request body contains a given text in any of its fields. -/
def mentionsText : PollRequest → String → Bool
  | PollRequest.startSession m h, t => m == t || h.any (fun msg => msg.content == t)
  | PollRequest.getSession k sid, t => k == t || sid == t

/-- A poll-variant state with an established session after a first
exchange. -/
def estPollApp : PollApp :=
  { key := some "k", sessionId := some "s1", model := some "m",
    history := [⟨"user", "first"⟩, ⟨"assistant", "A"⟩] }

/-- C8: a turn submitted while a session is already established issues
only get-session polls whose bodies carry key and session_id; no
start-session request is issued and no issued request contains the new
user message, so the message never reaches the remote service. -/
theorem established_turn_drops_message :
    (pollHandleSendMessage estPollApp "second message"
        [some [⟨"assistant", "A"⟩]]
        (FetchResult.ok { key := some "k2", session_id := some "s2" })).requests
      = [PollRequest.getSession "k" "s1"]
    ∧ ((pollHandleSendMessage estPollApp "second message"
        [some [⟨"assistant", "A"⟩]]
        (FetchResult.ok { key := some "k2", session_id := some "s2" })).requests.all
          (fun r => !(mentionsText r "second message"))) = true
    ∧ (pollHandleSendMessage estPollApp "second message"
        [some [⟨"assistant", "A"⟩]]
        (FetchResult.ok { key := some "k2", session_id := some "s2" })).history
      = estPollApp.history ++ [⟨"user", "second message"⟩]
    ∧ (pollHandleSendMessage estPollApp "second message"
        [some [⟨"assistant", "A"⟩]]
        (FetchResult.ok { key := some "k2", session_id := some "s2" })).errorShown
      = true := by
  decide

/-- C10: a send attempted with no model selected, or while a turn is
already in flight, is silently ignored in both variants: the state is
unchanged, so no request is issued, history is not mutated and no error
is surfaced. -/
theorem precondition_guard (sPush : AppState) (msg : String) (env : TurnEnv)
    (sPoll : PollApp) (reads : List Snapshot) (resp : FetchResult StartData) :
    ((sPush.model = none ∨ sPush.isStreaming = true) →
      handleSendMessage sPush msg env = sPush)
    ∧ ((sPoll.model = none ∨ sPoll.isWaitingForResponse = true) →
      pollHandleSendMessage sPoll msg reads resp = sPoll) := by
  constructor
  · intro h
    unfold handleSendMessage
    have hcond : (msg == "" || !(truthy sPush.model) || sPush.isStreaming) = true := by
      rcases h with hm | hs
      · rw [hm]
        simp [truthy]
      · rw [hs]
        simp
    rw [if_pos hcond]
  · intro h
    unfold pollHandleSendMessage
    have hcond :
        (msg == "" || !(truthy sPoll.model) || sPoll.isWaitingForResponse) = true := by
      rcases h with hm | hs
      · rw [hm]
        simp [truthy]
      · rw [hs]
        simp
    rw [if_pos hcond]

/-- Witness for the C10 theorem: a send on the default state (no model
selected) in both variants. -/
theorem precondition_guard_witness :
    handleSendMessage {} "hi" idleEnv = ({} : AppState)
    ∧ pollHandleSendMessage {} "hi" [] FetchResult.httpError = ({} : PollApp) :=
  ⟨(precondition_guard {} "hi" idleEnv {} [] FetchResult.httpError).1 (Or.inl rfl),
   (precondition_guard {} "hi" idleEnv {} [] FetchResult.httpError).2 (Or.inl rfl)⟩

end ChatClient
